import Mathlib

/-!
Verification of the crawling pipeline
(`src/generate-newsletter/chains/crawling.chain.ts`).

This file embeds the per-target crawling pipeline of `CrawlingChain` as pure
Lean functions and proves the spec's testable properties about them.

Modelling conventions:
* A JavaScript object with string-valued fields is an association list
  `Obj := List (String × String)`; later entries override earlier ones, which
  encodes object-spread semantics (`{...a, ...b}` becomes `a ++ b`, and a field
  written after a spread becomes an entry appended at the end).
* Effects are made explicit: `getHtmlFromUrl` becomes an oracle
  `fetch : String → Except String String` (a `.error` models a rejected
  promise), the target-supplied parsers are `Except`-valued functions carried
  on the `Target` record, `randomUUID` becomes a stream `uuid : Nat → String`
  of minted identifiers consumed in call order, and `this.logger.error` calls
  are collected into a returned list of `LogEvent`s.
* `Promise.allSettled` followed by an in-order `forEach` over the settled
  results is embedded as structural recursion over the input list, which
  processes the items in the same order.
-/

namespace Crawling

/-- A JavaScript object with string fields, as an association list.
Later entries override earlier ones (spread semantics). -/
abbrev Obj : Type := List (String × String)

/-- JS property access on an `Obj`: the value of the last entry for the key,
if any (later entries in the spread encoding win). -/
def getField : Obj → String → Option String
  | [], _ => none
  | p :: rest, k =>
    match getField rest k with
    | some v => some v
    | none => if p.1 = k then some p.2 else none

/-- Embeds `omit(o, [k])` from es-toolkit: the object without the field `k`. -/
def omitField (o : Obj) (k : String) : Obj :=
  o.filter (fun p => p.1 ≠ k)

/-- A crawling target: optional display name, listing URL, and the two
target-supplied parsing functions (`parseList`, `parseDetail`). -/
structure Target where
  name : Option String
  url : String
  parseList : String → Except String (List Obj)
  parseDetail : String → Except String Obj

/-- The `describeTarget` output: `{name: target.name || 'unknown', listUrl: target.url}`. -/
structure TargetDesc where
  name : String
  listUrl : String
  deriving DecidableEq, Repr

/-- Embeds `target.name || 'unknown'`: both `undefined` and the empty string are falsy. -/
def nameOrUnknown : Option String → String
  | some n => if n = "" then "unknown" else n
  | none => "unknown"

/-- Embeds `describeTarget` of `CrawlingChain`. -/
def describeTarget (t : Target) : TargetDesc :=
  ⟨nameOrUnknown t.name, t.url⟩

/-- One structured `logger.error` record; optional fields model the keys of the
`data` object of the corresponding call site. -/
structure LogEvent where
  event : String
  target : Option TargetDesc := none
  url : Option String := none
  detailUrl : Option String := none
  pipelineId : Option String := none
  error : Option String := none
  deriving DecidableEq, Repr

/-- Embeds `ParsedTargetListItemWithPipelineId`: the parser-produced object together
with the pipeline id minted for it. The JS value is the spread
`{...item, pipelineId}` (see `ListItemWP.toObj`); the minted id is spread last,
so property access `.pipelineId` always yields the minted id. -/
structure ListItemWP where
  item : Obj
  pipelineId : String
  deriving DecidableEq, Repr

/-- The JS object underlying a `ParsedTargetListItemWithPipelineId`:
`{...item, pipelineId: minted}`. -/
def ListItemWP.toObj (li : ListItemWP) : Obj :=
  li.item ++ [("pipelineId", li.pipelineId)]

/-- Property access `item.detailUrl`; the TypeScript type guarantees the field
is present, so the default never fires on well-typed inputs. -/
def ListItemWP.detailUrl (li : ListItemWP) : String :=
  (getField li.item "detailUrl").getD ""

/-- Embeds `ParsedTargetDetailWithPipelineId`: the pipeline id taken from the fetched
page and the parser-produced fields. The JS value is
`{pipelineId, ...fields}` (see `DetailWP.toObj`): the id is written first, so a
parser-produced `pipelineId` field would override it. -/
structure DetailWP where
  pipelineId : String
  fields : Obj
  deriving DecidableEq, Repr

/-- The JS object underlying a `ParsedTargetDetailWithPipelineId`:
`{pipelineId: assigned, ...fields}`. -/
def DetailWP.toObj (d : DetailWP) : Obj :=
  ("pipelineId", d.pipelineId) :: d.fields

/-- Property access `detail.pipelineId` on the underlying JS object. -/
def DetailWP.pid (d : DetailWP) : String :=
  (getField d.toObj "pipelineId").getD d.pipelineId

/-- Embeds `HtmlWithPipelineId`. -/
structure HtmlWithPipelineId where
  html : String
  pipelineId : String
  deriving DecidableEq, Repr

/-- Embeds `fetchListPageHtml`: returns the fetched listing HTML, or logs a
`crawl.list.fetch.failed` error and degrades to the empty string. -/
def fetchListPageHtml (fetch : String → Except String String) (t : Target) :
    String × List LogEvent :=
  match fetch t.url with
  | .ok html => (html, [])
  | .error e =>
      ("", [{ event := "crawl.list.fetch.failed",
              target := some (describeTarget t),
              url := some t.url,
              error := some e }])

/-- The `.map((item) => ({...item, pipelineId: randomUUID()}))` step of
`parseListPageHtml`: each parsed item gets the next minted id. -/
def mintPipelineIds (uuid : Nat → String) : Nat → List Obj → List ListItemWP
  | _, [] => []
  | i, item :: rest => ⟨item, uuid i⟩ :: mintPipelineIds uuid (i + 1) rest

/-- Embeds `parseListPageHtml`: empty content short-circuits to `[]` without
invoking the parser; a parser error is logged as `crawl.list.parse.failed` and
degrades to `[]`; on success every returned item is tagged with a fresh
pipeline id. -/
def parseListPageHtml (uuid : Nat → String) (t : Target) (listPageHtml : String) :
    List ListItemWP × List LogEvent :=
  if listPageHtml.length = 0 then ([], [])
  else
    match t.parseList listPageHtml with
    | .ok items => (mintPipelineIds uuid 0 items, [])
    | .error e =>
        ([], [{ event := "crawl.list.parse.failed",
                target := some (describeTarget t),
                error := some e }])

/-- Embeds `dedupeListItems`: asks the provider for the already-known articles
among the candidates' detail URLs and keeps the items whose detail URL is not
reported back. The provider's answer is modelled as the list of `detailUrl`
fields of the returned articles (the only field the code reads). -/
def dedupeListItems (fetchExistingArticlesByUrls : List String → List String)
    (parsedList : List ListItemWP) : List ListItemWP :=
  let existingUrls := fetchExistingArticlesByUrls (parsedList.map ListItemWP.detailUrl)
  parsedList.filter (fun item => ¬ existingUrls.contains item.detailUrl)

/-- Embeds `DetailFetchResult`, extended with the error logs the stage emits. -/
structure DetailFetchResult where
  list : List ListItemWP
  detailPagesHtmlWithPipelineId : List HtmlWithPipelineId
  failedCount : Nat
  errorLogs : List LogEvent

/-- Embeds `fetchDetailPagesHtml`: every item's detail URL is fetched (all
settled, no fail-fast); a fulfilled fetch contributes its HTML tagged with the
item's pipeline id and keeps the item, a rejected fetch increments the failure
counter and logs `crawl.detail.fetch.failed`. -/
def fetchDetailPagesHtml (fetch : String → Except String String) (t : Target) :
    List ListItemWP → DetailFetchResult
  | [] => ⟨[], [], 0, []⟩
  | item :: rest =>
    let r := fetchDetailPagesHtml fetch t rest
    match fetch item.detailUrl with
    | .ok html =>
        ⟨item :: r.list, ⟨html, item.pipelineId⟩ :: r.detailPagesHtmlWithPipelineId,
          r.failedCount, r.errorLogs⟩
    | .error e =>
        ⟨r.list, r.detailPagesHtmlWithPipelineId, r.failedCount + 1,
          { event := "crawl.detail.fetch.failed",
            target := some (describeTarget t),
            detailUrl := some item.detailUrl,
            error := some e } :: r.errorLogs⟩

/-- Embeds `new Map(list.map(item => [item.pipelineId, item])).get(pid)`: on duplicate
keys the JS `Map` constructor keeps the last entry, hence the reversed search. -/
def lookupItem (list : List ListItemWP) (pid : String) : Option ListItemWP :=
  list.reverse.find? (fun item => item.pipelineId == pid)

/-- Embeds `DetailParseResult`, extended with the error logs the stage emits. -/
structure DetailParseResult where
  list : List ListItemWP
  parsedDetails : List DetailWP
  failedCount : Nat
  errorLogs : List LogEvent

/-- The error message logged when a parsed detail has no matching list item. -/
def missingListItemMessage : String := "Missing list item for parsed detail"

/-- Embeds `parseDetailPagesHtml`: each fetched page is parsed (all settled);
a fulfilled parse whose pipeline id resolves to a surviving list item emits a
parsed detail and keeps the item; otherwise the failure counter is incremented
and a `crawl.detail.parse.failed` error is logged, with the rejection reason or
the missing-list-item message. -/
def parseDetailPagesHtml (t : Target) (list : List ListItemWP) :
    List HtmlWithPipelineId → DetailParseResult
  | [] => ⟨[], [], 0, []⟩
  | h :: rest =>
    let r := parseDetailPagesHtml t list rest
    match t.parseDetail h.html, lookupItem list h.pipelineId with
    | .ok v, some listItem =>
        ⟨listItem :: r.list, ⟨h.pipelineId, v⟩ :: r.parsedDetails,
          r.failedCount, r.errorLogs⟩
    | .ok _, none =>
        ⟨r.list, r.parsedDetails, r.failedCount + 1,
          { event := "crawl.detail.parse.failed",
            target := some (describeTarget t),
            detailUrl := none,
            pipelineId := some h.pipelineId,
            error := some missingListItemMessage } :: r.errorLogs⟩
    | .error e, listItem? =>
        ⟨r.list, r.parsedDetails, r.failedCount + 1,
          { event := "crawl.detail.parse.failed",
            target := some (describeTarget t),
            detailUrl := listItem?.map ListItemWP.detailUrl,
            pipelineId := some h.pipelineId,
            error := some e } :: r.errorLogs⟩

/-- The merge of one surviving list item with its parsed detail:
`{...omit(listItem, ['pipelineId']), ...omit(detail, ['pipelineId'])}`. -/
def mergeListItemWithDetail (listItem : ListItemWP) (detail : DetailWP) : Obj :=
  omitField listItem.toObj "pipelineId" ++ omitField detail.toObj "pipelineId"

/-- Embeds `mergeParsedArticles`: for every parsed detail in order, looks up
its matching survivor; a missing match throws (modelled as `.error` carrying
the thrown message), a found match contributes one merged record. -/
def mergeParsedArticles (list : List ListItemWP) :
    List DetailWP → Except String (List Obj)
  | [] => .ok []
  | detail :: rest =>
    match lookupItem list detail.pid with
    | none =>
        .error ("No matching list item for detail with pipelineId: " ++ detail.pid)
    | some listItem =>
        (mergeParsedArticles list rest).map
          (fun tail => mergeListItemWithDetail listItem detail :: tail)

/-- The external collaborators of the pipeline (`CrawlingProvider` plus the
article store): the HTTP fetch, the existing-article lookup (modelled by the
detail URLs it reports), and the persistence call returning a saved count. -/
structure Provider where
  fetch : String → Except String String
  fetchExistingArticlesByUrls : List String → List String
  saveCrawledArticles : Target → List Obj → Nat

/-- The per-target pipeline of `executeGroupPipeline`'s inner chain: List
Fetch → List Parse → Dedupe → Detail Fetch → Detail Parse → Merge → Save, with
a thrown merge error propagating as `.error` and the stage logs concatenated
in stage order. -/
def runTargetPipeline (p : Provider) (uuid : Nat → String) (t : Target) :
    Except String Nat × List LogEvent :=
  let lf := fetchListPageHtml p.fetch t
  let lp := parseListPageHtml uuid t lf.1
  let deduped := dedupeListItems p.fetchExistingArticlesByUrls lp.1
  let df := fetchDetailPagesHtml p.fetch t deduped
  let dp := parseDetailPagesHtml t df.list df.detailPagesHtmlWithPipelineId
  let logs := lf.2 ++ lp.2 ++ df.errorLogs ++ dp.errorLogs
  match mergeParsedArticles dp.list dp.parsedDetails with
  | .error e => (.error e, logs)
  | .ok merged => (.ok (p.saveCrawledArticles t merged), logs)

/-- Embeds `chain.batch(group.targets.map((target) => ({target})))`: every
target of the group runs the per-target pipeline; a rejected target rejects the
whole batch, otherwise the per-target saved counts are collected in order. -/
def batchTargets (p : Provider) (uuid : Nat → String) :
    List Target → Except String (List Nat)
  | [] => .ok []
  | t :: rest =>
    match (runTargetPipeline p uuid t).1 with
    | .error e => .error e
    | .ok c => (batchTargets p uuid rest).map (fun counts => c :: counts)

/-- Embeds `executeGroupPipeline`'s batch-and-sum: the batch results are folded
with `results.reduce((sum, result) => sum + result.count, 0)`. -/
def executeGroupPipeline (p : Provider) (uuid : Nat → String)
    (targets : List Target) : Except String Nat :=
  (batchTargets p uuid targets).map (fun counts => counts.sum)

/-! Basic lemmas about field lookup on embedded JS objects. -/

theorem getField_append_of_isSome (a b : Obj) (k : String) (v : String)
    (h : getField b k = some v) : getField (a ++ b) k = some v := by
  induction a with
  | nil => simpa using h
  | cons p rest ih =>
      show getField (p :: (rest ++ b)) k = some v
      rw [getField, ih]

theorem getField_append_of_none (a b : Obj) (k : String)
    (h : getField b k = none) : getField (a ++ b) k = getField a k := by
  induction a with
  | nil => simpa using h
  | cons p rest ih =>
      show getField (p :: (rest ++ b)) k = getField (p :: rest) k
      rw [getField, getField, ih]

theorem getField_cons_ne (p : String × String) (o : Obj) (k : String)
    (h : p.1 ≠ k) : getField (p :: o) k = getField o k := by
  rw [getField]
  cases hr : getField o k with
  | some v => rfl
  | none => simp [h]

theorem omitField_cons (p : String × String) (o : Obj) (k : String) :
    omitField (p :: o) k
      = if p.1 = k then omitField o k else p :: omitField o k := by
  by_cases hp : p.1 = k <;> simp [omitField, List.filter_cons, hp]

theorem getField_omitField_self (o : Obj) (k : String) :
    getField (omitField o k) k = none := by
  induction o with
  | nil => rfl
  | cons p rest ih =>
      rw [omitField_cons]
      by_cases hp : p.1 = k
      · simpa [hp] using ih
      · rw [if_neg hp, getField_cons_ne p (omitField rest k) k hp]
        exact ih

theorem getField_omitField_ne (o : Obj) (k k' : String) (h : k' ≠ k) :
    getField (omitField o k) k' = getField o k' := by
  induction o with
  | nil => rfl
  | cons p rest ih =>
      rw [omitField_cons]
      by_cases hp : p.1 = k
      · have hp' : p.1 ≠ k' := by rw [hp]; exact Ne.symm h
        rw [if_pos hp, getField_cons_ne p rest k' hp', ih]
      · rw [if_neg hp]
        show getField (p :: omitField rest k) k' = getField (p :: rest) k'
        rw [getField, getField, ih]

/-! Characterisation of the Detail Fetch stage. -/

theorem fetchDetail_list_sublist (fetch : String → Except String String)
    (t : Target) (list : List ListItemWP) :
    List.Sublist (fetchDetailPagesHtml fetch t list).list list := by
  induction list with
  | nil => simp [fetchDetailPagesHtml]
  | cons item rest ih =>
      rw [fetchDetailPagesHtml]
      cases fetch item.detailUrl with
      | ok html => exact List.Sublist.cons₂ item ih
      | error e => exact List.Sublist.cons item ih

theorem fetchDetail_partition (fetch : String → Except String String)
    (t : Target) (list : List ListItemWP) :
    (fetchDetailPagesHtml fetch t list).list.length
      + (fetchDetailPagesHtml fetch t list).failedCount = list.length := by
  induction list with
  | nil => rfl
  | cons item rest ih =>
      rw [fetchDetailPagesHtml]
      cases fetch item.detailUrl with
      | ok html =>
          simp only [List.length_cons]
          omega
      | error e =>
          simp only [List.length_cons]
          omega

theorem fetchDetail_pids (fetch : String → Except String String)
    (t : Target) (list : List ListItemWP) :
    (fetchDetailPagesHtml fetch t list).detailPagesHtmlWithPipelineId.map
        HtmlWithPipelineId.pipelineId
      = (fetchDetailPagesHtml fetch t list).list.map ListItemWP.pipelineId := by
  induction list with
  | nil => rfl
  | cons item rest ih =>
      rw [fetchDetailPagesHtml]
      cases fetch item.detailUrl with
      | ok html => simpa using ih
      | error e => simpa using ih

/-- Claim C4: Detail Fetch partitions its input exactly — surviving items plus
failures account for every input item, the survivors are an in-order
subsequence of the input, and the fetched pages carry the survivors' pipeline
ids positionally. -/
theorem detail_fetch_partitions_input (fetch : String → Except String String)
    (t : Target) (list : List ListItemWP) :
    (fetchDetailPagesHtml fetch t list).list.length
        + (fetchDetailPagesHtml fetch t list).failedCount = list.length ∧
    List.Sublist (fetchDetailPagesHtml fetch t list).list list ∧
    (fetchDetailPagesHtml fetch t list).detailPagesHtmlWithPipelineId.map
        HtmlWithPipelineId.pipelineId
      = (fetchDetailPagesHtml fetch t list).list.map ListItemWP.pipelineId :=
  ⟨fetchDetail_partition fetch t list, fetchDetail_list_sublist fetch t list,
    fetchDetail_pids fetch t list⟩

/-- Claim C5: Dedupe keeps exactly the input items whose detail URL is not
reported by the existing-article lookup, in input order and unmodified. -/
theorem dedupe_keeps_unknown_urls (lookup : List String → List String)
    (parsedList : List ListItemWP) :
    List.Sublist (dedupeListItems lookup parsedList) parsedList ∧
    ∀ item, item ∈ dedupeListItems lookup parsedList ↔
      item ∈ parsedList ∧
        item.detailUrl ∉ lookup (parsedList.map ListItemWP.detailUrl) := by
  constructor
  · exact List.filter_sublist parsedList
  · intro item
    simp [dedupeListItems, List.mem_filter]

/-! Characterisation of the Detail Parse and Merge stages. -/

theorem parseDetail_counts (t : Target) (list : List ListItemWP)
    (hs : List HtmlWithPipelineId) :
    (parseDetailPagesHtml t list hs).parsedDetails.length
      + (parseDetailPagesHtml t list hs).failedCount = hs.length := by
  induction hs with
  | nil => rfl
  | cons hd tl ih =>
      simp only [parseDetailPagesHtml]
      split <;> simp only [List.length_cons] <;> omega

theorem merge_ok_length (list : List ListItemWP) :
    ∀ (details : List DetailWP) (merged : List Obj),
      mergeParsedArticles list details = .ok merged →
      merged.length = details.length := by
  intro details
  induction details with
  | nil =>
      intro merged h
      rw [mergeParsedArticles] at h
      cases h
      rfl
  | cons d rest ih =>
      intro merged h
      rw [mergeParsedArticles] at h
      cases hl : lookupItem list d.pid with
      | none => rw [hl] at h; cases h
      | some li =>
          rw [hl] at h
          cases hr : mergeParsedArticles list rest with
          | error e => rw [hr] at h; cases h
          | ok tail =>
              rw [hr] at h
              cases h
              simpa using ih tail hr

/-- Claim C1: across Detail Fetch, Detail Parse and Merge, items can only be
dropped — for every deduped input list, a successful Merge hands Save at most
as many records as Dedupe let through. -/
theorem merge_count_le_dedupe_count (fetch : String → Except String String)
    (t : Target) (deduped : List ListItemWP)
    (df : DetailFetchResult) (dp : DetailParseResult) (merged : List Obj)
    (hdf : df = fetchDetailPagesHtml fetch t deduped)
    (hdp : dp = parseDetailPagesHtml t df.list df.detailPagesHtmlWithPipelineId)
    (hok : mergeParsedArticles dp.list dp.parsedDetails = .ok merged) :
    merged.length ≤ deduped.length := by
  subst hdf hdp
  have h1 := merge_ok_length _ _ _ hok
  have h2 := parseDetail_counts t (fetchDetailPagesHtml fetch t deduped).list
    (fetchDetailPagesHtml fetch t deduped).detailPagesHtmlWithPipelineId
  have h3 := congrArg List.length (fetchDetail_pids fetch t deduped)
  simp only [List.length_map] at h3
  have h4 := fetchDetail_partition fetch t deduped
  omega

/-- Witness for C1 on a one-item pipeline where every stage succeeds. -/
theorem merge_count_le_dedupe_count_witness :
    ([[("detailUrl", "u1"), ("body", "b")]] : List Obj).length
      ≤ ([⟨[("detailUrl", "u1")], "p1"⟩] : List ListItemWP).length :=
  merge_count_le_dedupe_count (fun _ => .ok "H")
    ⟨none, "u", fun _ => .ok [], fun _ => .ok [("body", "b")]⟩
    [⟨[("detailUrl", "u1")], "p1"⟩] _ _
    [[("detailUrl", "u1"), ("body", "b")]] rfl rfl rfl

/-- Claim C2: a parsed detail whose correlation id matches no surviving item
makes Merge throw (an `.error`), and if every parsed detail has a match, Merge
returns exactly one normalized record per parsed detail. -/
theorem merge_correlation (list : List ListItemWP) (details : List DetailWP) :
    ((∃ d ∈ details, lookupItem list d.pid = none) →
      ∃ e, mergeParsedArticles list details = .error e) ∧
    ((∀ d ∈ details, (lookupItem list d.pid).isSome) →
      ∃ merged, mergeParsedArticles list details = .ok merged ∧
        merged.length = details.length) := by
  induction details with
  | nil =>
      constructor
      · rintro ⟨d, hd, _⟩
        exact absurd hd (List.not_mem_nil d)
      · intro _
        exact ⟨[], rfl, rfl⟩
  | cons d rest ih =>
      constructor
      · rintro ⟨d', hd', hnone⟩
        rw [mergeParsedArticles]
        rcases List.mem_cons.mp hd' with rfl | hmem
        · rw [hnone]
          exact ⟨_, rfl⟩
        · cases hl : lookupItem list d.pid with
          | none => exact ⟨_, rfl⟩
          | some li =>
              obtain ⟨e, he⟩ := ih.1 ⟨d', hmem, hnone⟩
              rw [he]
              exact ⟨e, rfl⟩
      · intro hall
        rw [mergeParsedArticles]
        have hd := hall d (List.mem_cons_self d rest)
        cases hl : lookupItem list d.pid with
        | none => rw [hl] at hd; simp at hd
        | some li =>
            obtain ⟨tail, htail, hlen⟩ :=
              ih.2 (fun x hx => hall x (List.mem_cons_of_mem d hx))
            rw [htail]
            exact ⟨_, rfl, by simp [hlen]⟩

/-- Witness for C2: an unmatched detail makes Merge throw; a matched one-item
input merges into one record. -/
theorem merge_correlation_witness :
    (∃ e, mergeParsedArticles [] [⟨"p1", []⟩] = .error e) ∧
    (∃ merged, mergeParsedArticles [⟨[("detailUrl", "u")], "p1"⟩] [⟨"p1", []⟩]
        = .ok merged ∧ merged.length = [(⟨"p1", []⟩ : DetailWP)].length) :=
  ⟨(merge_correlation [] [⟨"p1", []⟩]).1 (by decide),
    (merge_correlation [⟨[("detailUrl", "u")], "p1"⟩] [⟨"p1", []⟩]).2 (by decide)⟩

/-- Claim C8: no normalized record produced by a successful Merge carries a
`pipelineId` field. -/
theorem merged_has_no_pipelineId (list : List ListItemWP) :
    ∀ (details : List DetailWP) (merged : List Obj),
      mergeParsedArticles list details = .ok merged →
      ∀ r ∈ merged, getField r "pipelineId" = none := by
  intro details
  induction details with
  | nil =>
      intro merged h r hr
      rw [mergeParsedArticles] at h
      cases h
      exact absurd hr (List.not_mem_nil r)
  | cons d rest ih =>
      intro merged h r hr
      rw [mergeParsedArticles] at h
      cases hl : lookupItem list d.pid with
      | none => rw [hl] at h; cases h
      | some li =>
          rw [hl] at h
          cases hrest : mergeParsedArticles list rest with
          | error e => rw [hrest] at h; cases h
          | ok tail =>
              rw [hrest] at h
              cases h
              rcases List.mem_cons.mp hr with rfl | hmem
              · rw [mergeListItemWithDetail,
                  getField_append_of_none _ _ _ (getField_omitField_self _ _)]
                exact getField_omitField_self _ _
              · exact ih tail hrest r hmem

/-- Witness for C8 at a one-pair merge. -/
theorem merged_has_no_pipelineId_witness :
    getField [("detailUrl", "u"), ("body", "b")] "pipelineId" = none :=
  merged_has_no_pipelineId [⟨[("detailUrl", "u")], "p1"⟩]
    [⟨"p1", [("body", "b")]⟩] [[("detailUrl", "u"), ("body", "b")]]
    rfl [("detailUrl", "u"), ("body", "b")] (by decide)

theorem merge_ok_get (list : List ListItemWP) :
    ∀ (details : List DetailWP) (merged : List Obj),
      mergeParsedArticles list details = .ok merged →
      ∀ (i : Nat) (hi : i < details.length) (li : ListItemWP),
        lookupItem list (details.get ⟨i, hi⟩).pid = some li →
        ∃ hm : i < merged.length,
          merged.get ⟨i, hm⟩ = mergeListItemWithDetail li (details.get ⟨i, hi⟩) := by
  intro details
  induction details with
  | nil =>
      intro merged _ i hi
      exact absurd hi (by simp)
  | cons d rest ih =>
      intro merged h i hi li hfound
      rw [mergeParsedArticles] at h
      cases hl : lookupItem list d.pid with
      | none => rw [hl] at h; cases h
      | some li0 =>
          rw [hl] at h
          cases hrest : mergeParsedArticles list rest with
          | error e => rw [hrest] at h; cases h
          | ok tail =>
              rw [hrest] at h
              cases h
              cases i with
              | zero =>
                  have : li0 = li := by
                    have := hfound
                    simp only [List.get] at this
                    rw [hl] at this
                    exact Option.some.inj this
                  subst this
                  exact ⟨by simp, by simp [List.get]⟩
              | succ n =>
                  have hn : n < rest.length := by simpa using hi
                  obtain ⟨hm, hgm⟩ := ih tail hrest n hn li (by simpa using hfound)
                  exact ⟨by simpa using hm, by simpa using hgm⟩

/-- Claim C10: when a surviving list item and its matched parsed detail both
define the same field (other than the correlation id), the merged record takes
the detail's value. -/
theorem merge_detail_field_precedence (list : List ListItemWP)
    (details : List DetailWP) (merged : List Obj)
    (hok : mergeParsedArticles list details = .ok merged)
    (i : Nat) (hi : i < details.length) (li : ListItemWP)
    (hfound : lookupItem list (details.get ⟨i, hi⟩).pid = some li)
    (k v w : String) (hk : k ≠ "pipelineId")
    (hdetail : getField (details.get ⟨i, hi⟩).fields k = some v)
    (hitem : getField li.toObj k = some w) :
    ∃ hm : i < merged.length, getField (merged.get ⟨i, hm⟩) k = some v := by
  obtain ⟨hm, hgm⟩ := merge_ok_get list details merged hok i hi li hfound
  refine ⟨hm, ?_⟩
  rw [hgm, mergeListItemWithDetail]
  have hd : getField (omitField (details.get ⟨i, hi⟩).toObj "pipelineId") k
      = some v := by
    rw [getField_omitField_ne _ _ _ hk, DetailWP.toObj,
      getField_cons_ne _ _ _ (Ne.symm hk)]
    exact hdetail
  exact getField_append_of_isSome _ _ _ _ hd

/-- Witness for C10: list item and detail both carry a `title` field; the
merged record's `title` lookup yields the detail's value. -/
theorem merge_detail_field_precedence_witness :
    ∃ hm : 0 < ([[("detailUrl", "u"), ("title", "A"), ("title", "B")]] : List Obj).length,
      getField
        (([[("detailUrl", "u"), ("title", "A"), ("title", "B")]] : List Obj).get ⟨0, hm⟩)
        "title" = some "B" :=
  merge_detail_field_precedence
    [⟨[("detailUrl", "u"), ("title", "A")], "p1"⟩] [⟨"p1", [("title", "B")]⟩]
    [[("detailUrl", "u"), ("title", "A"), ("title", "B")]] rfl 0 (by decide)
    ⟨[("detailUrl", "u"), ("title", "A")], "p1"⟩ (by decide)
    "title" "B" "A" (by decide) (by decide) (by decide)

/-! The Detail Parse stage and its handling of correlation violations. -/

/-- Counterexample to C3 as stated: when a parse succeeds but the entry's
correlation id matches no surviving item, the structured error's reason is the
capitalised string `Missing list item for parsed detail`, so no logged reason
equals the claim's lowercase "missing list item for parsed detail". -/
theorem detail_parse_missing_reason_counterexample :
    (⟨none, "u", fun _ => .ok [], fun _ => .ok []⟩ : Target).parseDetail "h"
        = .ok [] ∧
    lookupItem [] "p1" = none ∧
    ∀ l ∈ (parseDetailPagesHtml
        ⟨none, "u", fun _ => .ok [], fun _ => .ok []⟩ [] [⟨"h", "p1"⟩]).errorLogs,
      l.error ≠ some "missing list item for parsed detail" := by
  refine ⟨rfl, rfl, ?_⟩
  decide

/-- Claim C3 (amended: the logged reason is the code's capitalised
`Missing list item for parsed detail`): an entry whose parse succeeds but whose
correlation id matches no surviving item is dropped — it contributes no parsed
detail and keeps no item alive — while the failure counter is incremented and a
`crawl.detail.parse.failed` error with that reason is logged; the stage returns
normally. -/
theorem detail_parse_missing_item_drops_entry (t : Target)
    (list : List ListItemWP) (pre post : List HtmlWithPipelineId)
    (h : HtmlWithPipelineId) (v : Obj)
    (hok : t.parseDetail h.html = .ok v)
    (hmiss : lookupItem list h.pipelineId = none) :
    (parseDetailPagesHtml t list (pre ++ h :: post)).parsedDetails
        = (parseDetailPagesHtml t list (pre ++ post)).parsedDetails ∧
    (parseDetailPagesHtml t list (pre ++ h :: post)).list
        = (parseDetailPagesHtml t list (pre ++ post)).list ∧
    (parseDetailPagesHtml t list (pre ++ h :: post)).failedCount
        = (parseDetailPagesHtml t list (pre ++ post)).failedCount + 1 ∧
    ({ event := "crawl.detail.parse.failed", target := some (describeTarget t),
       pipelineId := some h.pipelineId,
       error := some missingListItemMessage } : LogEvent)
      ∈ (parseDetailPagesHtml t list (pre ++ h :: post)).errorLogs := by
  induction pre with
  | nil =>
      simp [parseDetailPagesHtml, hok, hmiss]
  | cons a pre ih =>
      simp only [List.cons_append, parseDetailPagesHtml]
      cases hpa : t.parseDetail a.html with
      | ok va =>
          cases hla : lookupItem list a.pipelineId with
          | some lia => simp [ih.1, ih.2.1, ih.2.2.1, ih.2.2.2]
          | none => simp [ih.1, ih.2.1, ih.2.2.1, ih.2.2.2]
      | error e => simp [ih.1, ih.2.1, ih.2.2.1, ih.2.2.2]

/-- Witness for the amended C3 on a single orphaned entry. -/
theorem detail_parse_missing_item_drops_entry_witness :
    (parseDetailPagesHtml ⟨none, "u", fun _ => .ok [], fun _ => .ok [("x", "1")]⟩
          [] [⟨"h", "p1"⟩]).parsedDetails
        = (parseDetailPagesHtml
            ⟨none, "u", fun _ => .ok [], fun _ => .ok [("x", "1")]⟩ [] []).parsedDetails ∧
    (parseDetailPagesHtml ⟨none, "u", fun _ => .ok [], fun _ => .ok [("x", "1")]⟩
          [] [⟨"h", "p1"⟩]).list
        = (parseDetailPagesHtml
            ⟨none, "u", fun _ => .ok [], fun _ => .ok [("x", "1")]⟩ [] []).list ∧
    (parseDetailPagesHtml ⟨none, "u", fun _ => .ok [], fun _ => .ok [("x", "1")]⟩
          [] [⟨"h", "p1"⟩]).failedCount
        = (parseDetailPagesHtml
            ⟨none, "u", fun _ => .ok [], fun _ => .ok [("x", "1")]⟩ [] []).failedCount
          + 1 ∧
    ({ event := "crawl.detail.parse.failed",
       target := some (describeTarget
         ⟨none, "u", fun _ => .ok [], fun _ => .ok [("x", "1")]⟩),
       pipelineId := some "p1",
       error := some missingListItemMessage } : LogEvent)
      ∈ (parseDetailPagesHtml
          ⟨none, "u", fun _ => .ok [], fun _ => .ok [("x", "1")]⟩
          [] [⟨"h", "p1"⟩]).errorLogs :=
  detail_parse_missing_item_drops_entry
    ⟨none, "u", fun _ => .ok [], fun _ => .ok [("x", "1")]⟩
    [] [] [] ⟨"h", "p1"⟩ [("x", "1")] rfl rfl

/-! The List Fetch and List Parse stages. -/

theorem string_length_eq_zero_iff (s : String) : s.length = 0 ↔ s = "" := by
  constructor
  · intro h
    cases s with
    | mk data =>
        cases data with
        | nil => rfl
        | cons a l => simp [String.length] at h
  · intro h
    subst h
    rfl

theorem mint_map_item (uuid : Nat → String) :
    ∀ (i : Nat) (items : List Obj),
      (mintPipelineIds uuid i items).map ListItemWP.item = items := by
  intro i items
  induction items generalizing i with
  | nil => rfl
  | cons a rest ih => simp [mintPipelineIds, ih]

theorem mint_map_pid (uuid : Nat → String) :
    ∀ (i : Nat) (items : List Obj),
      (mintPipelineIds uuid i items).map ListItemWP.pipelineId
        = (List.range items.length).map (fun j => uuid (i + j)) := by
  intro i items
  induction items generalizing i with
  | nil => rfl
  | cons a rest ih =>
      simp only [mintPipelineIds, List.map_cons, List.length_cons,
        List.range_succ_eq_map, List.map_map, ih]
      have h1 : uuid (i + 0) = uuid i := by rw [Nat.add_zero]
      have h2 : ((fun j => uuid (i + j)) ∘ Nat.succ) = (fun j => uuid (i + 1 + j)) := by
        funext j
        simp only [Function.comp_apply]
        congr 1
        omega
      rw [h1, h2]

/-- Claim C6: on empty listing content, List Parse returns the empty list
without consulting the parser; a throwing parser is logged and degrades to the
empty list; a successful parse yields exactly the returned items, each
augmented with a freshly minted pipeline id. -/
theorem list_parse_behaviour (uuid : Nat → String) (t : Target) :
    (∀ f, parseListPageHtml uuid { t with parseList := f } "" = ([], [])) ∧
    (∀ html e, t.parseList html = .error e → html ≠ "" →
      parseListPageHtml uuid t html
        = ([], [{ event := "crawl.list.parse.failed",
                  target := some (describeTarget t), error := some e }])) ∧
    (∀ html items, t.parseList html = .ok items → html ≠ "" →
      parseListPageHtml uuid t html = (mintPipelineIds uuid 0 items, []) ∧
      (parseListPageHtml uuid t html).1.map ListItemWP.item = items ∧
      (parseListPageHtml uuid t html).1.map ListItemWP.pipelineId
        = (List.range items.length).map uuid) := by
  refine ⟨?_, ?_, ?_⟩
  · intro f
    rfl
  · intro html e he hne
    have hlen : ¬ html.length = 0 := by
      intro hc
      exact hne ((string_length_eq_zero_iff html).mp hc)
    rw [parseListPageHtml, if_neg hlen, he]
  · intro html items hok hne
    have hlen : ¬ html.length = 0 := by
      intro hc
      exact hne ((string_length_eq_zero_iff html).mp hc)
    have heq : parseListPageHtml uuid t html = (mintPipelineIds uuid 0 items, []) := by
      rw [parseListPageHtml, if_neg hlen, hok]
    refine ⟨heq, ?_, ?_⟩
    · rw [heq]
      exact mint_map_item uuid 0 items
    · rw [heq, mint_map_pid uuid 0 items]
      apply List.map_congr_left
      intro j _
      rw [Nat.zero_add]

/-- Witness for C6, exercising the empty, throwing and successful branches. -/
theorem list_parse_behaviour_witness :
    parseListPageHtml (fun n => toString n)
        { (⟨some "T", "u",
            fun s => if s = "err" then .error "boom" else .ok [[("detailUrl", "u1")]],
            fun _ => .ok []⟩ : Target) with parseList := fun _ => .ok [] } ""
      = ([], []) ∧
    parseListPageHtml (fun n => toString n)
        ⟨some "T", "u",
          fun s => if s = "err" then .error "boom" else .ok [[("detailUrl", "u1")]],
          fun _ => .ok []⟩ "err"
      = ([], [{ event := "crawl.list.parse.failed",
                target := some ⟨"T", "u"⟩, error := some "boom" }]) ∧
    ((parseListPageHtml (fun n => toString n)
        ⟨some "T", "u",
          fun s => if s = "err" then .error "boom" else .ok [[("detailUrl", "u1")]],
          fun _ => .ok []⟩ "page").1.map ListItemWP.item = [[("detailUrl", "u1")]] ∧
      (parseListPageHtml (fun n => toString n)
        ⟨some "T", "u",
          fun s => if s = "err" then .error "boom" else .ok [[("detailUrl", "u1")]],
          fun _ => .ok []⟩ "page").1.map ListItemWP.pipelineId
        = (List.range 1).map (fun n => toString n)) :=
  ⟨(list_parse_behaviour (fun n => toString n)
      ⟨some "T", "u",
        fun s => if s = "err" then .error "boom" else .ok [[("detailUrl", "u1")]],
        fun _ => .ok []⟩).1 (fun _ => .ok []),
    (list_parse_behaviour (fun n => toString n)
      ⟨some "T", "u",
        fun s => if s = "err" then .error "boom" else .ok [[("detailUrl", "u1")]],
        fun _ => .ok []⟩).2.1 "err" "boom" rfl (by decide),
    ((list_parse_behaviour (fun n => toString n)
      ⟨some "T", "u",
        fun s => if s = "err" then .error "boom" else .ok [[("detailUrl", "u1")]],
        fun _ => .ok []⟩).2.2 "page" [[("detailUrl", "u1")]] rfl (by decide)).2⟩

/-! List Fetch failure isolation and the group total. -/

/-- Claim C7: when the listing-page fetch fails, List Fetch logs a
`crawl.list.fetch.failed` error carrying the target description and the
underlying message and degrades to empty content, and the whole per-target
pipeline then completes normally, handing Save zero candidates, with that
single error in the log trail. -/
theorem list_fetch_failure_degrades (p : Provider) (uuid : Nat → String)
    (t : Target) (e : String) (hfail : p.fetch t.url = .error e) :
    fetchListPageHtml p.fetch t
      = ("", [{ event := "crawl.list.fetch.failed",
                target := some (describeTarget t), url := some t.url,
                error := some e }]) ∧
    runTargetPipeline p uuid t
      = (.ok (p.saveCrawledArticles t []),
         [{ event := "crawl.list.fetch.failed",
            target := some (describeTarget t), url := some t.url,
            error := some e }]) := by
  have hlf : fetchListPageHtml p.fetch t
      = ("", [{ event := "crawl.list.fetch.failed",
                target := some (describeTarget t), url := some t.url,
                error := some e }]) := by
    rw [fetchListPageHtml, hfail]
  refine ⟨hlf, ?_⟩
  simp only [runTargetPipeline, hlf]
  rfl

/-- Witness for C7: an unreachable listing page yields a completed pipeline
with the provider-reported count for an empty record list. -/
theorem list_fetch_failure_degrades_witness :
    fetchListPageHtml
        (Provider.fetch ⟨fun _ => .error "down", fun urls => urls, fun _ _ => 7⟩)
        ⟨none, "u", fun _ => .ok [], fun _ => .ok []⟩
      = ("", [{ event := "crawl.list.fetch.failed",
                target := some ⟨"unknown", "u"⟩, url := some "u",
                error := some "down" }]) ∧
    runTargetPipeline ⟨fun _ => .error "down", fun urls => urls, fun _ _ => 7⟩
        (fun n => toString n) ⟨none, "u", fun _ => .ok [], fun _ => .ok []⟩
      = (.ok 7,
         [{ event := "crawl.list.fetch.failed",
            target := some ⟨"unknown", "u"⟩, url := some "u",
            error := some "down" }]) :=
  list_fetch_failure_degrades ⟨fun _ => .error "down", fun urls => urls, fun _ _ => 7⟩
    (fun n => toString n) ⟨none, "u", fun _ => .ok [], fun _ => .ok []⟩ "down" rfl

/-- Claim C9: an empty group totals zero, and a successful group run returns
exactly the sum of the per-target Save-stage counts. -/
theorem group_total_is_sum_of_saves (p : Provider) (uuid : Nat → String) :
    executeGroupPipeline p uuid [] = .ok 0 ∧
    ∀ (targets : List Target) (n : Nat),
      executeGroupPipeline p uuid targets = .ok n →
      ∃ counts : List Nat,
        targets.map (fun t => (runTargetPipeline p uuid t).1)
          = counts.map Except.ok ∧ n = counts.sum := by
  constructor
  · rfl
  · intro targets
    induction targets with
    | nil =>
        intro n h
        rw [executeGroupPipeline] at h
        cases h
        exact ⟨[], rfl, rfl⟩
    | cons t ts ih =>
        intro n h
        rw [executeGroupPipeline, batchTargets] at h
        cases hc : (runTargetPipeline p uuid t).1 with
        | error e => rw [hc] at h; cases h
        | ok c =>
            rw [hc] at h
            cases hcs : batchTargets p uuid ts with
            | error e => rw [hcs] at h; cases h
            | ok counts =>
                rw [hcs] at h
                cases h
                obtain ⟨tailCounts, hmap, hsum⟩ :=
                  ih (counts.sum) (by rw [executeGroupPipeline, hcs]; rfl)
                refine ⟨c :: tailCounts, ?_, ?_⟩
                · simp [hc, hmap]
                · simp [hsum]

/-- Witness for C9: one target whose listing fetch fails still completes, its
Save count 5 is the group total. -/
theorem group_total_is_sum_of_saves_witness :
    ∃ counts : List Nat,
      ([(⟨none, "u", fun _ => .ok [], fun _ => .ok []⟩ : Target)].map
          (fun t => (runTargetPipeline
            ⟨fun _ => .error "down", fun urls => urls, fun _ _ => 5⟩
            (fun n => toString n) t).1))
        = counts.map Except.ok ∧ (5 : Nat) = counts.sum :=
  (group_total_is_sum_of_saves
      ⟨fun _ => .error "down", fun urls => urls, fun _ _ => 5⟩
      (fun n => toString n)).2
    [⟨none, "u", fun _ => .ok [], fun _ => .ok []⟩] 5 rfl

end Crawling
